import Mathlib

/-!
Shallow embedding of `express-prometheus-exporter` (files `src/index.js` and
`src/express-utils.js`) together with theorems checking the repository's
specification against it.

Conventions of the embedding:
* JavaScript numbers that the program keeps in integer range are embedded as
  `Nat`; the quantities compared against the configured `sampleRate` (and the
  values fed to histograms) are embedded as `ℚ`, with `Option ℚ` standing for
  a JavaScript number that may be `NaN` (`none` = `NaN`).
* A JavaScript value that may be `undefined` is embedded as an `Option`.
* Throwing code is embedded with `Except Unit` (or a dedicated outcome type).
* The mutable per-middleware state (`allowedRoutes`,
  `isAllowedRoutesInitialized`, `sampleCount`) is threaded explicitly.
-/

namespace ExpressProm

/-! ## Small JavaScript semantics helpers -/

/-- Truthiness of a JavaScript string: every string except `""` is truthy. -/
def jsTruthy (s : String) : Bool := s ≠ ""

/-- ASCII whitespace, as trimmed by JavaScript string-to-number coercion. -/
def jsWhitespace (c : Char) : Bool :=
  c = ' ' || c = '\t' || c = '\n' || c = '\r' || c = '\x0b' || c = '\x0c'

/-- Remove leading and trailing whitespace from a character list. -/
def listTrim (cs : List Char) : List Char :=
  ((cs.dropWhile jsWhitespace).reverse.dropWhile jsWhitespace).reverse

/-- Numeric value of a list of decimal digits. -/
def digitsVal (cs : List Char) : ℕ :=
  cs.foldl (fun a c => 10 * a + (c.toNat - 48)) 0

/-- JavaScript `Number(string)` on the string forms that can appear in a
`Content-Length` header: surrounding whitespace is trimmed, the empty string
converts to `0`, an optional sign followed by a decimal literal converts to
its value, and anything else is `NaN` (embedded as `none`).  Exotic numeric
forms (hex, exponents, `Infinity`) are outside this model. -/
def jsNumber (s : String) : Option ℚ :=
  let cs := listTrim s.toList
  if cs = [] then some 0
  else
    let signed : ℚ × List Char :=
      match cs with
      | '-' :: rest => (-1, rest)
      | '+' :: rest => (1, rest)
      | _ => (1, cs)
    let intPart := signed.2.takeWhile Char.isDigit
    let rest := signed.2.dropWhile Char.isDigit
    match rest with
    | [] => if intPart = [] then none else some (signed.1 * digitsVal intPart)
    | '.' :: frac =>
        if frac.all Char.isDigit ∧ (intPart ≠ [] ∨ frac ≠ []) then
          some (signed.1 *
            ((digitsVal intPart : ℚ) + (digitsVal frac : ℚ) / (10 ^ frac.length)))
        else none
    | _ => none

/-- JavaScript `String.prototype.toUpperCase` on ASCII strings. -/
def jsToUpper (s : String) : String :=
  ⟨s.toList.map Char.toUpper⟩

/-! ## SampleGate (src/index.js:14,46,97,108) -/

/-- The constant `samplePercent = 100` (src/index.js:15). -/
def samplePercent : ℕ := 100

/-- The counter advance performed by `recordResponse`
(src/index.js:108): `sampleCount = sampleCount === samplePercent ? 0 : sampleCount + 1`. -/
def advanceSample (sampleCount : ℕ) : ℕ :=
  if sampleCount = samplePercent then 0 else sampleCount + 1

/-- The gate `isSampled` (src/index.js:97): `(sampleCount / samplePercent) <= sampleRate`. -/
def isSampled (sampleRate : ℚ) (sampleCount : ℕ) : Bool :=
  decide ((sampleCount : ℚ) / (samplePercent : ℚ) ≤ sampleRate)

/-- Counter value after `n` gate evaluations starting from the initial
`sampleCount = 0` (src/index.js:46). -/
def counterAfter (n : ℕ) : ℕ := advanceSample^[n] 0

/-- Whether the `(n+1)`-st gate evaluation (0-indexed `n`) admits the request:
the counter is advanced first, then compared. -/
def admitted (sampleRate : ℚ) (n : ℕ) : Bool :=
  isSampled sampleRate (counterAfter (n + 1))

theorem advanceSample_eq_mod (c : ℕ) (h : c ≤ 100) :
    advanceSample c = (c + 1) % 101 := by
  simp only [advanceSample, samplePercent]
  split <;> omega

theorem counterAfter_eq_mod (n : ℕ) : counterAfter n = n % 101 := by
  induction n with
  | zero => rfl
  | succ n ih =>
      have h : counterAfter (n + 1) = advanceSample (counterAfter n) := by
        simp [counterAfter, Function.iterate_succ_apply']
      rw [h, ih, advanceSample_eq_mod _ (by omega)]
      omega

theorem isSampled_iff (sampleRate : ℚ) (c : ℕ) :
    isSampled sampleRate c = true ↔ (c : ℚ) / 100 ≤ sampleRate := by
  simp [isSampled, samplePercent]

/-! ## PathNormalizer -/

/-- A word character in the sense of the JavaScript regex class `\w`. -/
def isWordChar (c : Char) : Bool := c.isAlphanum || c = '_'

/-- Whether a character list begins with a word character. -/
def headIsWord : List Char → Bool
  | [] => false
  | c :: _ => isWordChar c

/-- Replace-all action of the regex `expressPathParameterRegex = /:\w+(?:_\w+)*/`
(src/index.js:14): every maximal occurrence of `:` followed by one or more
word characters is replaced by the placeholder `#val`.  The Boolean state is
true while consuming the word characters of a parameter token already
replaced. -/
def replaceParamsAux : Bool → List Char → List Char
  | _, [] => []
  | skipping, c :: rest =>
      if skipping ∧ isWordChar c then replaceParamsAux true rest
      else if c = ':' ∧ headIsWord rest then
        '#' :: 'v' :: 'a' :: 'l' :: replaceParamsAux true rest
      else
        c :: replaceParamsAux false rest

/-- Replace every parameter token `:\w+` in a character list by `#val`. -/
def replaceParams (cs : List Char) : List Char :=
  replaceParamsAux false cs

/-- A mask, embedded as its replace-all action on the path string. -/
def Mask : Type := String → String

/-- The built-in Express route-parameter mask `expressPathParameterRegex`
(src/index.js:14), as the mask replacing each parameter token by `#val`. -/
def expressPathParameterRegex : Mask :=
  fun s => ⟨replaceParams s.toList⟩

/-- Modelled from the spec: `normalizers.js` is required by `src/index.js`
but is not under `src/`.  Per §3 of the specification, the normalized path
is produced by substituting every substring matched by each configured mask
pattern, applied in configured order, with the placeholder token; each mask
is embedded as its replace-all action on the string. -/
def normalizePath (path : String) (masks : List Mask) : String :=
  masks.foldl (fun s m => m s) path

/-- Modelled from the spec: `normalizers.js` is required by `src/index.js`
but is not under `src/`.  Per §4.4 of the specification, when status
normalization is enabled a numeric status code maps to its coarse class
(e.g. `200–299 → "2xx"`, as in §8); otherwise the exact code is used. -/
def normalizeStatusCode (code : ℕ) : String :=
  if 200 ≤ code ∧ code < 300 then "2xx"
  else if 300 ≤ code ∧ code < 400 then "3xx"
  else if 400 ≤ code ∧ code < 500 then "4xx"
  else if 500 ≤ code ∧ code < 600 then "5xx"
  else toString code

/-! ## express-utils.js: router introspection -/

/-- One per-verb handler record of a route node (an element of
`stack.route.stack` in `extractRoutes`). -/
structure Handler where
  method : Option String
  path : Option String
deriving DecidableEq, Repr

/-- A terminal route node (`stack.route`): its per-verb handler stack and its
own relative path pattern. -/
structure RouteNode where
  stack : List Handler
  path : Option String
deriving DecidableEq, Repr

/-- One entry of a router's internal stack.  `handleStack` is
`stack.handle.stack` (present exactly when the entry is itself a sub-router),
`regexp` is the string form of the mount-pattern regex, `route` is the
terminal route node if any, and `routerPath` the mount prefix a parent may
have attached. -/
inductive StackEntry where
  | mk : Option (List StackEntry) → String → Option RouteNode → Option String →
      StackEntry

def StackEntry.handleStack : StackEntry → Option (List StackEntry)
  | .mk h _ _ _ => h

def StackEntry.regexp : StackEntry → String
  | .mk _ r _ _ => r

def StackEntry.route : StackEntry → Option RouteNode
  | .mk _ _ rt _ => rt

def StackEntry.routerPath : StackEntry → Option String
  | .mk _ _ _ p => p

/-- The JavaScript spread `{ routerPath, ...st }` (express-utils.js:17): the
new `routerPath` is used only when `st` does not already carry one. -/
def StackEntry.withRouterPath : StackEntry → String → StackEntry
  | .mk h r rt p, rp =>
      .mk h r rt (match p with | some q => some q | none => some rp)

/-- The router object read through `app._router` / `app.router`; its `stack`
property may be absent. -/
structure RouterObj where
  stack : Option (List StackEntry)

/-- The host application object, restricted to the properties `getStacks`
reads.  `router` is the Express 5 property whose access may throw
(express-utils.js:46-52); the throw is embedded as `Except.error`. -/
structure App where
  routes : Option (List (String × List Handler))
  _router : Option RouterObj
  stack : Option (List StackEntry)
  router : Except Unit (Option RouterObj)

/-- Strip a character from the front of a list where `pat` occurs first, i.e.
split `cs` at the first occurrence of `pat`.  Returns the part before the
occurrence and the part after it. -/
def firstSplit (cs pat : List Char) : Option (List Char × List Char) :=
  if pat.isPrefixOf cs then some ([], cs.drop pat.length)
  else
    match cs with
    | [] => none
    | c :: rest =>
        (firstSplit rest pat).map (fun pr => (c :: pr.1, pr.2))

/-- JavaScript `String.prototype.replace` with a string pattern: only the
first occurrence is replaced. -/
def replaceFirst (s pat rep : String) : String :=
  match firstSplit s.toList pat.toList with
  | some pr => ⟨pr.1 ++ rep.toList ++ pr.2⟩
  | none => s

/-- The helper `getPathFromRegex` (express-utils.js:4-10): drop the leading `/^`, drop
the trailing `?(?=\/|$)/i`, and unescape every `\/`. -/
def getPathFromRegex (regexp : String) : String :=
  String.replace
    (replaceFirst (replaceFirst regexp "/^" "") "?(?=\\/|$)/i" "")
    "\\/" "/"

/-- The reducer `combineStacks` (express-utils.js:12-21): a stack entry carrying a nested
handle stack contributes its children, each tagged with the router path
derived from the entry's mount regex; other entries are kept as-is. -/
def combineStacks (acc : List StackEntry) (st : StackEntry) : List StackEntry :=
  match st.handleStack with
  | some children =>
      acc ++ children.map (fun c => c.withRouterPath (getPathFromRegex st.regexp))
  | none => acc ++ [st]

/-- The classifier `getStacks` (express-utils.js:23-55): classify the app into one of the
four supported router shapes; the Express 5 `app.router` access is guarded so
a throw degrades to no stacks. -/
def getStacks (app : App) : List StackEntry :=
  match app.routes with
  | some methodRoutes =>
      ((methodRoutes.foldl (fun acc kv => acc ++ kv.2) []).map
        (fun r => StackEntry.mk none "" (some { stack := [r], path := none }) none))
  | none =>
    match app._router.bind RouterObj.stack with
    | some sta => sta.foldl combineStacks []
    | none =>
      match app.stack with
      | some sta => sta.foldl combineStacks []
      | none =>
        match app.router with
        | .ok (some rt) =>
            match rt.stack with
            | some sta => sta.foldl combineStacks []
            | none => []
        | .ok none => []
        | .error _ => []

/-- A discovered route: an upper-cased HTTP verb and a resolved path
(the elements pushed onto `routes` in `extractRoutes`). -/
structure RouteRec where
  method : String
  path : String
deriving DecidableEq, Repr

/-- The fragment join `[routerPath, stack.route.path, route.path].filter((s) => !!s).join('')`
(express-utils.js:74-81): drop absent and empty fragments, concatenate the
rest with no separator. -/
def joinTruthy (frags : List (Option String)) : String :=
  String.join ((frags.filterMap id).filter jsTruthy)

/-- Split a character list at every occurrence of the separator. -/
def splitOnChar (sep : Char) : List Char → List (List Char)
  | [] => [[]]
  | c :: rest =>
      match splitOnChar sep rest with
      | [] => [[c]]
      | h :: t => if c = sep then [] :: h :: t else (c :: h) :: t

/-- Whether a path string is absolute. -/
def startsWithSlash (s : String) : Bool :=
  match s.toList with
  | c :: _ => c = '/'
  | [] => false

/-- One step of POSIX path resolution over already-split segments: empty and
`.` segments vanish, `..` pops, anything else is appended. -/
def resolveSegs (acc : List String) : List String → List String
  | [] => acc
  | seg :: rest =>
      if seg = "" ∨ seg = "." then resolveSegs acc rest
      else if seg = ".." then resolveSegs acc.dropLast rest
      else resolveSegs (acc ++ [seg]) rest

/-- Node's `path.resolve` applied to a single argument (express-utils.js:70):
a relative path is resolved against the process working directory `cwd`, and
the result is collapsed with filesystem path-resolution semantics. -/
def pathResolve (cwd p : String) : String :=
  let full := if startsWithSlash p then p else cwd ++ "/" ++ p
  let segs := (splitOnChar '/' full.toList).map (fun cs => (⟨cs⟩ : String))
  "/" ++ String.intercalate "/" (resolveSegs [] segs)

/-- The verb read `route.method ? route.method.toUpperCase() : null` (express-utils.js:70):
an absent or empty (falsy) method yields `null`. -/
def handlerMethod (h : Handler) : Option String :=
  match h.method with
  | some m => if jsTruthy m then some (jsToUpper m) else none
  | none => none

/-- The body of the inner loop of `extractRoutes` (express-utils.js:69-87):
fold state is the routes pushed so far for this route node together with the
`routeLogged` record of upper-cased verbs already seen. -/
def logStep (cwd : String) (routerPath rnPath : Option String)
    (acc : List RouteRec × List String) (h : Handler) :
    List RouteRec × List String :=
  match handlerMethod h with
  | some m =>
      if m ∈ acc.2 then acc
      else
        (acc.1 ++ [{ method := m,
                     path := pathResolve cwd
                       (joinTruthy [routerPath, rnPath, h.path]) }],
         acc.2 ++ [m])
  | none => acc

/-- Routes contributed by one terminal route node. -/
def processRouteStack (cwd : String) (routerPath : Option String)
    (rn : RouteNode) : List RouteRec :=
  (rn.stack.foldl (logStep cwd routerPath rn.path) ([], [])).1

/-- Routes contributed by one stack entry (`if (stack.route) { ... }`,
express-utils.js:67-88). -/
def processStack (cwd : String) (st : StackEntry) : List RouteRec :=
  match st.route with
  | some rn => processRouteStack cwd st.routerPath rn
  | none => []

/-- The extractor `extractRoutes` (express-utils.js:58-93).  The ambient `cwd` is the
process working directory consulted by `path.resolve`. -/
def extractRoutes (cwd : String) (app : App) : List RouteRec :=
  (getStacks app).foldl (fun acc st => acc ++ processStack cwd st) []

/-! ## The middleware (src/index.js) -/

/-- The label set recorded against every metric (src/index.js:129): the seeded
`route`/`method`/`status` labels plus whatever custom entries the
`transformLabels` hook adds. -/
structure Labels where
  route : String
  method : String
  status : String
  custom : List (String × String)
deriving DecidableEq, Repr

/-- The incoming request, restricted to the properties `recordResponse`
reads: `originalUrl`, `method`, `app` (for route discovery) and the
`Content-Length` request header. -/
structure Req where
  originalUrl : String
  method : String
  app : App
  contentLength : Option String

/-- The response, restricted to the properties `recordResponse` reads. -/
structure Res where
  statusCode : ℕ
  contentLength : Option String

/-- The middleware options that `recordResponse` consults, with the defaults
of `defaultOptions` (src/index.js:19-36) available per field at use sites. -/
structure Options where
  metricsPath : String
  collectAnyPaths : Bool
  requestLengthBuckets : List ℚ
  responseLengthBuckets : List ℚ
  extraMasks : List Mask
  transformLabels : Option (Labels → Req → Res → Except Unit Labels)
  normalizeStatus : Bool
  sampleRate : ℚ

/-- The mutable per-middleware state (src/index.js:44-46). -/
structure MwState where
  allowedRoutes : List RouteRec
  isAllowedRoutesInitialized : Bool
  sampleCount : ℕ
deriving DecidableEq, Repr

/-- A metric update issued by `recordResponse`.  Histogram values are
`Option ℚ` with `none` standing for `NaN`. -/
inductive MetricEvent where
  | incCount (labels : Labels)
  | observeDuration (labels : Labels) (seconds : ℚ)
  | observeRequestLength (labels : Labels) (value : Option ℚ)
  | observeResponseLength (labels : Labels) (value : Option ℚ)
deriving DecidableEq, Repr

/-- The labels an event carries. -/
def eventLabels : MetricEvent → Labels
  | .incCount l => l
  | .observeDuration l _ => l
  | .observeRequestLength l _ => l
  | .observeResponseLength l _ => l

/-- Outcome of one `recordResponse` invocation: either the callback threw
(an uncaught `transformLabels` error) or it ran to some return point having
issued the given metric updates, in order. -/
inductive RecOutcome where
  | threw
  | emitted (events : List MetricEvent)
deriving DecidableEq, Repr

/-- The metric updates actually performed: none when the callback threw
before reaching them. -/
def emittedEvents : RecOutcome → List MetricEvent
  | .threw => []
  | .emitted l => l

/-- The lookup `isPathAllowed` (src/index.js:76-81). -/
def isPathAllowed (allowedRoutes : List RouteRec) (method path : String) :
    Bool :=
  if allowedRoutes.length = 0 then false
  else allowedRoutes.any (fun route =>
    route.method == method && route.path == path)

/-- The normalized allowed-route list computed by `initializeAllowedRoutes`
(src/index.js:83-95): the extracted routes with each path normalized under
`[...options.extraMasks, expressPathParameterRegex]`. -/
def discoverRoutes (opts : Options) (cwd : String) (app : App) :
    List RouteRec :=
  (extractRoutes cwd app).map fun r =>
    { method := r.method,
      path := normalizePath r.path
        (opts.extraMasks ++ [expressPathParameterRegex]) }

/-- The size-histogram observation blocks (src/index.js:139-153): observe only
when the bucket list is non-empty and the header is present and truthy; the
observed value is `Number(header)`. -/
def sizeObservation (buckets : List ℚ) (header : Option String)
    (mk : Option ℚ → MetricEvent) : List MetricEvent :=
  if buckets.length ≠ 0 then
    match header with
    | some s => if jsTruthy s then [mk (jsNumber s)] else []
    | none => []
  else []

/-- The callback `recordResponse` (src/index.js:103-154), as a function from the mutable
state and the request/response/elapsed-time triple to the new state and the
outcome.  `time` is the elapsed milliseconds reported by the response-time
wrapper. -/
def recordResponse (opts : Options) (cwd : String) (st : MwState)
    (req : Req) (res : Res) (time : ℚ) : MwState × RecOutcome :=
  if req.originalUrl = opts.metricsPath then (st, .emitted [])
  else
    let st1 := { st with sampleCount := advanceSample st.sampleCount }
    if isSampled opts.sampleRate st1.sampleCount = false then (st1, .emitted [])
    else
      let path := normalizePath req.originalUrl opts.extraMasks
      let st2 :=
        if opts.collectAnyPaths then st1
        else if st1.isAllowedRoutesInitialized then st1
        else { st1 with
               allowedRoutes := st1.allowedRoutes ++ discoverRoutes opts cwd req.app,
               isAllowedRoutesInitialized := true }
      if ¬opts.collectAnyPaths ∧ isPathAllowed st2.allowedRoutes req.method path = false
      then (st2, .emitted [])
      else
        let status :=
          if opts.normalizeStatus then normalizeStatusCode res.statusCode
          else toString res.statusCode
        let labels0 : Labels :=
          { route := path, method := req.method, status := status, custom := [] }
        match
          (match opts.transformLabels with
           | some f => f labels0 req res
           | none => .ok labels0) with
        | .error _ => (st2, .threw)
        | .ok labels =>
            (st2, .emitted
              ([.incCount labels, .observeDuration labels (time / 1000)]
                ++ sizeObservation opts.requestLengthBuckets req.contentLength
                     (.observeRequestLength labels)
                ++ sizeObservation opts.responseLengthBuckets res.contentLength
                     (.observeResponseLength labels)))

/-- What the scrape-route handler does with the response: pass control onward
untouched (`next()`) or answer with the registry payload and content type. -/
inductive ScrapeAction where
  | passControl
  | respond (contentType : String) (body : String)
deriving DecidableEq, Repr

/-- The scrape-route handler (src/index.js:172-190).  The authenticate hook's
outcome is embedded as `Except Unit Bool`: `.error` for a throw, `.ok b` for
a returned value of truthiness `b`. -/
def metricsRouteHandler (authenticate : Option (Req → Except Unit Bool))
    (contentType payload : String) (req : Req) : ScrapeAction :=
  match authenticate with
  | some f =>
      let result : Bool :=
        match f req with
        | .ok b => b
        | .error _ => false
      if result = false then .passControl
      else .respond contentType payload
  | none => .respond contentType payload

/-! ## Concrete objects used by witnesses and counterexamples -/

/-- An app none of whose router shapes is present. -/
def emptyApp : App := ⟨none, none, none, .ok none⟩

/-- An app whose only route is `GET /users/:id` in an Express 4 `_router`
stack. -/
def paramApp : App :=
  ⟨none,
   some ⟨some [StackEntry.mk none ""
      (some ⟨[⟨some "get", none⟩], some "/users/:id"⟩) none]⟩,
   none, .ok none⟩

/-- The fresh middleware state (src/index.js:44-46). -/
def freshState : MwState := ⟨[], false, 0⟩

/-- Baseline options: scrape path `/metrics`, no catalog enforcement, no
size buckets, no masks, no transform, raw status, `sampleRate = 1`. -/
def baseOpts : Options :=
  { metricsPath := "/metrics", collectAnyPaths := true,
    requestLengthBuckets := [], responseLengthBuckets := [],
    extraMasks := [], transformLabels := none,
    normalizeStatus := false, sampleRate := 1 }

/-! ## Theorems for the claims -/

theorem div_hundred_le_one (m : ℕ) (hm : m ≤ 100) : (m : ℚ) / 100 ≤ 1 := by
  rw [div_le_one (by norm_num)]
  exact_mod_cast hm

theorem div_hundred_le_zero (m : ℕ) : (m : ℚ) / 100 ≤ 0 ↔ m = 0 := by
  rw [div_le_iff₀ (by norm_num : (0:ℚ) < 100), zero_mul]
  exact_mod_cast Nat.le_zero

theorem div_hundred_le_half (m : ℕ) : (m : ℚ) / 100 ≤ 1 / 2 ↔ m ≤ 50 := by
  rw [div_le_iff₀ (by norm_num : (0:ℚ) < 100),
    (by norm_num : (1/2 : ℚ) * 100 = 50)]
  exact_mod_cast Iff.rfl

/-- Claim C1 (amended): every gate evaluation first advances the counter by
`sampleCount = (sampleCount == 100 ? 0 : sampleCount + 1)` and then admits
iff `sampleCount / 100 <= sampleRate`; from the initial counter `0` the
counter cycles with period 101 (post-advance values `1..100` then `0`).
With `sampleRate = 1.0` every evaluation is admitted; with `sampleRate = 0.0`
exactly the evaluations whose post-advance counter is `0` — one per
101-cycle — are admitted; with `sampleRate = 0.5` the evaluations with
post-advance counter in `{0} ∪ 1..50` are admitted and `51..100` rejected.
In `recordResponse` a rejected evaluation returns right after the advance. -/
theorem sampleGate_cycle (rate : ℚ) (n : ℕ) :
    counterAfter (n + 1) = advanceSample (counterAfter n) ∧
    (admitted rate n = true ↔ (((n + 1) % 101 : ℕ) : ℚ) / 100 ≤ rate) ∧
    admitted 1 n = true ∧
    (admitted 0 n = true ↔ (n + 1) % 101 = 0) ∧
    (admitted (1/2) n = true ↔ (n + 1) % 101 ≤ 50) ∧
    (∀ opts cwd st req res t, req.originalUrl ≠ opts.metricsPath →
       isSampled opts.sampleRate (advanceSample st.sampleCount) = false →
       recordResponse opts cwd st req res t =
         ({ st with sampleCount := advanceSample st.sampleCount },
          .emitted [])) := by
  have hiter : counterAfter (n + 1) = advanceSample (counterAfter n) := by
    simp [counterAfter, Function.iterate_succ_apply']
  have hadm : ∀ r : ℚ, admitted r n = true ↔
      (((n + 1) % 101 : ℕ) : ℚ) / 100 ≤ r := by
    intro r
    rw [admitted, counterAfter_eq_mod, isSampled_iff]
  refine ⟨hiter, hadm rate, ?_, ?_, ?_, ?_⟩
  · rw [hadm 1]
    exact div_hundred_le_one _ (by omega)
  · rw [hadm 0, div_hundred_le_zero]
  · rw [hadm (1/2), div_hundred_le_half]
  · intro opts cwd st req res t h hs
    simp [recordResponse, h, hs]

theorem isSampled_eq_false_iff (r : ℚ) (c : ℕ) :
    isSampled r c = false ↔ ¬ ((c : ℚ) / 100 ≤ r) := by
  simp [isSampled, samplePercent]

/-- Witness for C1: the first evaluation at rate `1` is admitted, and at
rate `0` a concrete rejected evaluation returns right after the counter
advance with no events. -/
theorem sampleGate_cycle_witness :
    admitted 1 0 = true ∧
    recordResponse { baseOpts with sampleRate := 0 } "/" freshState
        ⟨"/x", "GET", emptyApp, none⟩ ⟨200, none⟩ 1 =
      ({ freshState with sampleCount := advanceSample freshState.sampleCount },
       .emitted []) :=
  ⟨(sampleGate_cycle 1 0).2.2.1,
   (sampleGate_cycle 0 0).2.2.2.2.2 _ "/" freshState _ _ 1
     (by simp [baseOpts])
     (by
       show isSampled (0 : ℚ) (advanceSample 0) = false
       rw [isSampled_eq_false_iff]
       norm_num
       decide)⟩

/-- Claim C1 counterexample: with `sampleRate = 0.0` the claim says no
evaluation is ever admitted, but the 101st evaluation from a fresh counter
(post-advance counter `0`) is admitted. -/
theorem sampleGate_rate0_cex :
    admitted 0 100 = true ∧ counterAfter 101 = 0 := by
  have h : counterAfter (100 + 1) = 0 := by
    rw [counterAfter_eq_mod]
  refine ⟨?_, h⟩
  unfold admitted
  rw [h, isSampled_iff]
  norm_num

/-- Claim C4: a request whose raw URL equals the configured scrape-endpoint
path returns from the recording callback before the sample counter advances
and before any metric update: the state is unchanged and no event is
emitted. -/
theorem metricsPath_excluded (opts : Options) (cwd : String) (st : MwState)
    (req : Req) (res : Res) (t : ℚ)
    (h : req.originalUrl = opts.metricsPath) :
    recordResponse opts cwd st req res t = (st, .emitted []) := by
  simp [recordResponse, h]

/-- Witness for C4 at a concrete scrape request. -/
theorem metricsPath_excluded_witness :
    recordResponse baseOpts "/" freshState
      ⟨"/metrics", "GET", emptyApp, none⟩ ⟨200, none⟩ 1 =
      (freshState, .emitted []) :=
  metricsPath_excluded baseOpts "/" freshState
    ⟨"/metrics", "GET", emptyApp, none⟩ ⟨200, none⟩ 1 rfl

/-- Claim C5 (amended): from a fresh state the counter stays in `[0, 100]`
— the value `100` is taken after the 100th evaluation — and it advances with
period 101 (equivalently, is incremented mod 101), exactly once per
evaluated (non-scrape-path) request; the advance preserves the `≤ 100`
bound. -/
theorem samplerState_period (n : ℕ) (opts : Options) (cwd : String)
    (st : MwState) (req : Req) (res : Res) (t : ℚ)
    (h : req.originalUrl ≠ opts.metricsPath) :
    counterAfter n ≤ 100 ∧
    counterAfter (n + 1) = (counterAfter n + 1) % 101 ∧
    (recordResponse opts cwd st req res t).1.sampleCount
      = advanceSample st.sampleCount ∧
    (st.sampleCount ≤ 100 →
      (recordResponse opts cwd st req res t).1.sampleCount ≤ 100) := by
  have key : (recordResponse opts cwd st req res t).1.sampleCount
      = advanceSample st.sampleCount := by
    unfold recordResponse
    rw [if_neg h]
    dsimp only
    repeat' split
    all_goals rfl
  refine ⟨?_, ?_, key, ?_⟩
  · rw [counterAfter_eq_mod]; omega
  · rw [counterAfter_eq_mod, counterAfter_eq_mod]; omega
  · intro hc
    rw [key, advanceSample_eq_mod _ hc]
    omega

/-- Witness for C5 at a concrete non-scrape request. -/
theorem samplerState_period_witness :
    counterAfter 3 ≤ 100 ∧
    (recordResponse baseOpts "/" freshState
        ⟨"/x", "GET", emptyApp, none⟩ ⟨200, none⟩ 1).1.sampleCount
      = advanceSample freshState.sampleCount :=
  ⟨(samplerState_period 3 baseOpts "/" freshState
      ⟨"/x", "GET", emptyApp, none⟩ ⟨200, none⟩ 1 (by simp [baseOpts])).1,
   (samplerState_period 3 baseOpts "/" freshState
      ⟨"/x", "GET", emptyApp, none⟩ ⟨200, none⟩ 1 (by simp [baseOpts])).2.2.1⟩

/-- Claim C5 counterexample: the claim says `sampleCount ∈ [0, 100)` always
and that the counter is incremented mod 100, but advancing from `99` yields
`100`, and after 100 evaluations from a fresh state the counter is exactly
`100`, outside `[0, 100)`. -/
theorem samplerState_bound_cex :
    advanceSample 99 = 100 ∧ counterAfter 100 = 100 ∧
    ¬ counterAfter 100 < 100 := by
  have h : counterAfter 100 = 100 := by
    rw [counterAfter_eq_mod]
  exact ⟨by decide, h, by rw [h]; omega⟩

/-- Claim C10: if the configured `transformLabels` hook throws when invoked,
the recording callback aborts before any metric update — the request counter
is not incremented and no duration or size observation is made. -/
theorem transformLabels_abort (opts : Options) (cwd : String) (st : MwState)
    (req : Req) (res : Res) (t : ℚ)
    (f : Labels → Req → Res → Except Unit Labels)
    (hf : opts.transformLabels = some f)
    (hthrow : ∀ l r s, f l r s = .error ()) :
    emittedEvents (recordResponse opts cwd st req res t).2 = [] := by
  simp only [recordResponse, hf, hthrow]
  repeat' split
  all_goals rfl

/-- Witness for C10: a throwing transform on a request that reaches label
assembly yields no metric events. -/
theorem transformLabels_abort_witness :
    emittedEvents
      (recordResponse
        { baseOpts with transformLabels := some (fun _ _ _ => .error ()) }
        "/" freshState ⟨"/x", "GET", emptyApp, none⟩ ⟨200, none⟩ 1).2 = [] :=
  transformLabels_abort _ "/" freshState ⟨"/x", "GET", emptyApp, none⟩
    ⟨200, none⟩ 1 (fun _ _ _ => .error ()) rfl (fun _ _ _ => rfl)

/-- Claim C9: with an authenticate hook configured, a falsy result or a
throw makes the scrape handler pass control onward with nothing written —
never an explicit 401/403 — and only a truthy result (or no hook) serves the
registry payload with its content type. -/
theorem scrapeAuth_conceal (auth : Option (Req → Except Unit Bool))
    (ct payload : String) (req : Req) :
    (metricsRouteHandler auth ct payload req = .passControl ↔
      ∃ f, auth = some f ∧ (f req = .ok false ∨ f req = .error ())) ∧
    (metricsRouteHandler auth ct payload req = .passControl ∨
      metricsRouteHandler auth ct payload req = .respond ct payload) := by
  cases auth with
  | none => simp [metricsRouteHandler]
  | some f =>
      cases hfr : f req with
      | ok b =>
          cases b <;> simp [metricsRouteHandler, hfr]
      | error e =>
          cases e
          simp [metricsRouteHandler, hfr]

theorem isSampled_one (c : ℕ) (hc : c ≤ 100) : isSampled 1 c = true := by
  rw [isSampled_iff]
  exact div_hundred_le_one c hc

/-- Every `recordResponse` call either leaves the catalog state untouched or
— exactly when the initialization flag was still unset — appends the result
of a single discovery pass and sets the flag. -/
theorem recordResponse_state (opts : Options) (cwd : String) (st : MwState)
    (req : Req) (res : Res) (t : ℚ) :
    ((recordResponse opts cwd st req res t).1.allowedRoutes
        = st.allowedRoutes ∧
     (recordResponse opts cwd st req res t).1.isAllowedRoutesInitialized
        = st.isAllowedRoutesInitialized) ∨
    (st.isAllowedRoutesInitialized = false ∧
     (recordResponse opts cwd st req res t).1.allowedRoutes
        = st.allowedRoutes ++ discoverRoutes opts cwd req.app ∧
     (recordResponse opts cwd st req res t).1.isAllowedRoutesInitialized
        = true) := by
  unfold recordResponse
  dsimp only
  repeat' split
  all_goals first
    | exact .inl ⟨rfl, rfl⟩
    | (refine .inr ⟨?_, rfl, rfl⟩; simp_all)

/-- The example catalog of §8: `{GET /a, POST /a, GET /b}`. -/
def exampleCatalog : List RouteRec :=
  [⟨"GET", "/a"⟩, ⟨"POST", "/a"⟩, ⟨"GET", "/b"⟩]

/-- Claim C2: the catalog is built exactly once — once the initialization
flag is set no call changes the catalog; the call that sets the flag appends
exactly one discovery pass; `lookup` is exact membership on method and path,
as on the example catalog `{GET /a, POST /a, GET /b}`. -/
theorem routeCatalog_frozen_lookup (opts : Options) (cwd : String)
    (st : MwState) (req : Req) (res : Res) (t : ℚ) :
    (st.isAllowedRoutesInitialized = true →
      (recordResponse opts cwd st req res t).1.allowedRoutes
          = st.allowedRoutes ∧
      (recordResponse opts cwd st req res t).1.isAllowedRoutesInitialized
          = true) ∧
    ((recordResponse opts cwd st req res t).1.isAllowedRoutesInitialized
        ≠ st.isAllowedRoutesInitialized →
      (recordResponse opts cwd st req res t).1.allowedRoutes
        = st.allowedRoutes ++ discoverRoutes opts cwd req.app) ∧
    (∀ routes m p, isPathAllowed routes m p = true ↔
      ∃ e ∈ routes, e.method = m ∧ e.path = p) ∧
    (isPathAllowed exampleCatalog "GET" "/a" = true ∧
     isPathAllowed exampleCatalog "DELETE" "/a" = false ∧
     isPathAllowed exampleCatalog "GET" "/c" = false) := by
  refine ⟨?_, ?_, ?_, ?_⟩
  · intro hi
    rcases recordResponse_state opts cwd st req res t with ⟨h1, h2⟩ | ⟨h0, _, _⟩
    · exact ⟨h1, h2.trans hi⟩
    · rw [hi] at h0; cases h0
  · intro hne
    rcases recordResponse_state opts cwd st req res t with ⟨_, h2⟩ | ⟨_, h1, _⟩
    · exact absurd h2 hne
    · exact h1
  · intro routes m p
    unfold isPathAllowed
    split
    · next hlen =>
        have : routes = [] := List.eq_nil_of_length_eq_zero hlen
        subst this
        simp
    · simp [List.any_eq_true, Bool.and_eq_true, beq_iff_eq]
  · refine ⟨?_, ?_, ?_⟩ <;> simp [isPathAllowed, exampleCatalog]

theorem eventLabels_of_main (l : Labels) (s : ℚ) (b1 b2 : List ℚ)
    (h1 h2 : Option String) (ev : MetricEvent)
    (hev : ev ∈ ([MetricEvent.incCount l, MetricEvent.observeDuration l s]
        ++ sizeObservation b1 h1 (MetricEvent.observeRequestLength l)
        ++ sizeObservation b2 h2 (MetricEvent.observeResponseLength l))) :
    eventLabels ev = l := by
  rcases List.mem_append.mp hev with h | h
  · rcases List.mem_append.mp h with h | h
    · simp only [List.mem_cons, List.not_mem_nil, or_false] at h
      rcases h with rfl | rfl <;> rfl
    · unfold sizeObservation at h
      repeat' split at h
      all_goals simp_all [eventLabels]
  · unfold sizeObservation at h
    repeat' split at h
    all_goals simp_all [eventLabels]

/-- Claim C3 (amended): the route label of every recorded request is
computed by applying only the user-supplied masks, in configured order, to
the raw URL — the built-in parameter mask is appended last after the user
masks only when normalizing the discovered route patterns during catalog
initialization.  The built-in mask rewrites Express parameter tokens
(`/users/:id → /users/#val`) but leaves literal dynamic values such as
`/users/42` unchanged. -/
theorem pathNormalizer_masks (opts : Options) (cwd : String) (st : MwState)
    (req : Req) (res : Res) (t : ℚ)
    (hT : opts.transformLabels = none) :
    (∀ ev ∈ emittedEvents (recordResponse opts cwd st req res t).2,
      (eventLabels ev).route = normalizePath req.originalUrl opts.extraMasks) ∧
    expressPathParameterRegex "/users/:id" = "/users/#val" ∧
    expressPathParameterRegex "/users/42" = "/users/42" ∧
    discoverRoutes baseOpts cwd paramApp
      = [⟨"GET", normalizePath "/users/:id" [expressPathParameterRegex]⟩] ∧
    normalizePath "/users/:id" [expressPathParameterRegex] = "/users/#val" := by
  refine ⟨?_, rfl, rfl, rfl, rfl⟩
  unfold recordResponse
  simp only [hT]
  try dsimp only
  repeat' split
  all_goals intro ev hev
  all_goals simp only [emittedEvents] at hev
  all_goals first
    | (rw [eventLabels_of_main _ _ _ _ _ _ ev hev])
    | cases hev

/-- Witness for C3 at the concrete app exposing `GET /users/:id`. -/
theorem pathNormalizer_masks_witness :
    expressPathParameterRegex "/users/:id" = "/users/#val" ∧
    discoverRoutes baseOpts "/" paramApp
      = [⟨"GET", normalizePath "/users/:id" [expressPathParameterRegex]⟩] :=
  ⟨(pathNormalizer_masks baseOpts "/" freshState ⟨"/x", "GET", emptyApp, none⟩
      ⟨200, none⟩ 1 rfl).2.1,
   (pathNormalizer_masks baseOpts "/" freshState ⟨"/x", "GET", emptyApp, none⟩
      ⟨200, none⟩ 1 rfl).2.2.2.1⟩

/-- Claim C3 counterexample: the claim says every raw path with a dynamic
segment such as `/users/42` normalizes to `/users/#val` with no custom
masks, but the middleware records the route label `/users/42` for it — the
built-in mask is not applied to request paths (and would not match a literal
segment anyway). -/
theorem pathNormalizer_request_cex :
    MetricEvent.incCount ⟨"/users/42", "GET", "2xx", []⟩ ∈
      emittedEvents (recordResponse { baseOpts with normalizeStatus := true }
        "/" freshState ⟨"/users/42", "GET", emptyApp, none⟩ ⟨200, none⟩ 1).2 ∧
    ("/users/42" : String) ≠ "/users/#val" := by
  have hs : isSampled 1 1 = true := isSampled_one 1 (by omega)
  constructor
  · simp [recordResponse, baseOpts, freshState, advanceSample, samplePercent,
      hs, normalizePath, normalizeStatusCode, sizeObservation, emittedEvents]
  · simp

/-- Witness for C2 at a concrete initialized state. -/
theorem routeCatalog_frozen_lookup_witness :
    (recordResponse baseOpts "/" ⟨exampleCatalog, true, 0⟩
        ⟨"/x", "GET", emptyApp, none⟩ ⟨200, none⟩ 1).1.allowedRoutes
      = exampleCatalog ∧
    isPathAllowed exampleCatalog "GET" "/a" = true :=
  ⟨((routeCatalog_frozen_lookup baseOpts "/" ⟨exampleCatalog, true, 0⟩
      ⟨"/x", "GET", emptyApp, none⟩ ⟨200, none⟩ 1).1 rfl).1,
   (routeCatalog_frozen_lookup baseOpts "/" ⟨exampleCatalog, true, 0⟩
      ⟨"/x", "GET", emptyApp, none⟩ ⟨200, none⟩ 1).2.2.2.1⟩

/-- Claim C8 (amended): a size histogram is observed iff the bucket list is
non-empty and the size header is present with a non-empty string value —
empty buckets or an absent/empty header silently skip the observation; the
observed value is `Number(header)`, which for a non-numeric header is `NaN`
(recorded, not skipped). -/
theorem sizeObservation_gate (buckets : List ℚ) (header : Option String)
    (mk : Option ℚ → MetricEvent) :
    (sizeObservation buckets header mk ≠ [] ↔
      buckets ≠ [] ∧ ∃ s, header = some s ∧ s ≠ "") ∧
    (∀ s, header = some s → s ≠ "" → buckets ≠ [] →
      sizeObservation buckets header mk = [mk (jsNumber s)]) ∧
    jsNumber "abc" = none := by
  refine ⟨?_, ?_, rfl⟩
  · unfold sizeObservation
    repeat' split
    all_goals simp_all [jsTruthy, List.length_eq_zero]
  · intro s hs hne hb
    subst hs
    simp [sizeObservation, jsTruthy, hne, hb, List.length_eq_zero]

/-- Witness for C8: a present numeric header with non-empty buckets is
observed with value `Number(header)`; `Number("abc")` is `NaN`. -/
theorem sizeObservation_gate_witness :
    sizeObservation [100] (some "7")
        (MetricEvent.observeRequestLength ⟨"/t", "GET", "2xx", []⟩)
      = [MetricEvent.observeRequestLength ⟨"/t", "GET", "2xx", []⟩
          (jsNumber "7")] ∧
    jsNumber "abc" = none :=
  ⟨(sizeObservation_gate [100] (some "7")
      (MetricEvent.observeRequestLength ⟨"/t", "GET", "2xx", []⟩)).2.1
        "7" rfl (by simp) (by simp),
   (sizeObservation_gate [100] (some "7")
      (MetricEvent.observeRequestLength ⟨"/t", "GET", "2xx", []⟩)).2.2⟩

/-- Options of the C8 counterexample: request-size buckets configured. -/
def nanOpts : Options :=
  { baseOpts with requestLengthBuckets := [100], normalizeStatus := true }

/-- Claim C8 counterexample: the claim says a non-numeric `Content-Length`
is silently skipped and nothing is recorded into the histogram, but with
non-empty buckets and header `"abc"` the middleware records an observation
— with value `Number("abc") = NaN`. -/
theorem sizeObservation_nan_cex :
    MetricEvent.observeRequestLength ⟨"/t", "GET", "2xx", []⟩ none ∈
      emittedEvents (recordResponse nanOpts "/" freshState
        ⟨"/t", "GET", emptyApp, some "abc"⟩ ⟨200, none⟩ 2).2 ∧
    jsNumber "abc" = none := by
  have hs : isSampled 1 1 = true := isSampled_one 1 (by omega)
  have hn : jsNumber "abc" = none := rfl
  refine ⟨?_, hn⟩
  simp [recordResponse, nanOpts, baseOpts, freshState, advanceSample,
    samplePercent, hs, normalizePath, normalizeStatusCode, sizeObservation,
    emittedEvents, jsTruthy, hn]

/-- An app whose only router shape is the Express 5 `router` property, and
accessing it throws. -/
def throwApp : App := ⟨none, none, none, .error ()⟩

/-- Claim C6: an error thrown while reading the router property during
discovery is swallowed — discovery degrades to an empty route list — and
with catalog enforcement enabled an empty catalog rejects every
(method, path) pair, so such a request is never recorded (fail-closed). -/
theorem discovery_failClosed (cwd : String) (app : App)
    (h1 : app.routes = none) (h2 : app._router.bind RouterObj.stack = none)
    (h3 : app.stack = none) (h4 : app.router = .error ()) :
    getStacks app = [] ∧ extractRoutes cwd app = [] ∧
    (∀ m p, isPathAllowed [] m p = false) ∧
    (∀ opts st req res t, opts.collectAnyPaths = false →
      st.allowedRoutes = [] → req.app = app →
      emittedEvents (recordResponse opts cwd st req res t).2 = []) := by
  have hstacks : getStacks app = [] := by
    unfold getStacks
    rw [h1, h2, h3, h4]
  have hex : extractRoutes cwd app = [] := by
    unfold extractRoutes
    rw [hstacks]
    rfl
  refine ⟨hstacks, hex, fun m p => rfl, ?_⟩
  intro opts st req res t hc hroutes happ
  unfold recordResponse
  try dsimp only
  repeat' split
  all_goals first
    | rfl
    | simp_all [discoverRoutes, isPathAllowed]

theorem foldl_append_eq_flatten (f : StackEntry → List RouteRec)
    (l : List StackEntry) (init : List RouteRec) :
    l.foldl (fun acc st => acc ++ f st) init = init ++ (l.map f).flatten := by
  induction l generalizing init with
  | nil => simp
  | cons a l ih => simp [ih, List.append_assoc]

theorem logStep_fold (cwd : String) (rp rnp : Option String)
    (hs : List Handler) :
    ∀ acc : List RouteRec × List String,
      acc.1.map RouteRec.method = acc.2 → acc.2.Nodup →
      ((hs.foldl (logStep cwd rp rnp) acc).1.map RouteRec.method
          = (hs.foldl (logStep cwd rp rnp) acc).2) ∧
      (hs.foldl (logStep cwd rp rnp) acc).2.Nodup ∧
      (∀ e ∈ (hs.foldl (logStep cwd rp rnp) acc).1,
        e ∈ acc.1 ∨ ∃ h ∈ hs, handlerMethod h = some e.method ∧
          e.path = pathResolve cwd (joinTruthy [rp, rnp, h.path])) := by
  induction hs with
  | nil =>
      intro acc hmap hnd
      exact ⟨hmap, hnd, fun e he => .inl he⟩
  | cons h hs ih =>
      intro acc hmap hnd
      simp only [List.foldl_cons]
      rcases hm : handlerMethod h with _ | m
      · have hstep : logStep cwd rp rnp acc h = acc := by
          simp [logStep, hm]
        rw [hstep]
        obtain ⟨a, b, c⟩ := ih acc hmap hnd
        refine ⟨a, b, fun e he => ?_⟩
        rcases c e he with hin | hex
        · exact .inl hin
        · obtain ⟨h', hh', hprop⟩ := hex
          exact .inr ⟨h', List.mem_cons_of_mem _ hh', hprop⟩
      · by_cases hmem : m ∈ acc.2
        · have hstep : logStep cwd rp rnp acc h = acc := by
            simp [logStep, hm, hmem]
          rw [hstep]
          obtain ⟨a, b, c⟩ := ih acc hmap hnd
          refine ⟨a, b, fun e he => ?_⟩
          rcases c e he with hin | hex
          · exact .inl hin
          · obtain ⟨h', hh', hprop⟩ := hex
            exact .inr ⟨h', List.mem_cons_of_mem _ hh', hprop⟩
        · have hstep : logStep cwd rp rnp acc h =
              (acc.1 ++ [RouteRec.mk m
                  (pathResolve cwd (joinTruthy [rp, rnp, h.path]))],
               acc.2 ++ [m]) := by
            simp [logStep, hm, hmem]
          rw [hstep]
          have hmap' : (acc.1 ++ [RouteRec.mk m
              (pathResolve cwd (joinTruthy [rp, rnp, h.path]))]).map
                RouteRec.method = acc.2 ++ [m] := by
            simp [hmap]
          have hnd' : (acc.2 ++ [m]).Nodup := by
            simp [List.nodup_append, hnd, hmem]
          obtain ⟨a, b, c⟩ := ih
            (acc.1 ++ [RouteRec.mk m
                (pathResolve cwd (joinTruthy [rp, rnp, h.path]))],
             acc.2 ++ [m]) hmap' hnd'
          refine ⟨a, b, fun e he => ?_⟩
          rcases c e he with hin | hex
          · rcases List.mem_append.mp hin with hin | hin
            · exact .inl hin
            · have he' : e = RouteRec.mk m
                  (pathResolve cwd (joinTruthy [rp, rnp, h.path])) := by
                simpa using hin
              refine .inr ⟨h, List.mem_cons_self _ _, ?_, ?_⟩
              · rw [he']
                exact hm
              · rw [he']
          · obtain ⟨h', hh', hprop⟩ := hex
            exact .inr ⟨h', List.mem_cons_of_mem _ hh', hprop⟩

/-- Claim C7: route extraction flattens the per-node contributions in
order; within one route node at most one entry per upper-cased verb is
produced (a verb already recorded for that node is a no-op), and every
entry's path is the `path.resolve` of the concatenation of the non-empty
fragments `routerPath`, `routeNode.path`, `handlerNode.path`, in that
order. -/
theorem extractRoutes_dedup_paths (cwd : String) (app : App) :
    extractRoutes cwd app
      = ((getStacks app).map (processStack cwd)).flatten ∧
    ∀ st ∈ getStacks app,
      ((processStack cwd st).map RouteRec.method).Nodup ∧
      ∀ e ∈ processStack cwd st, ∃ rn, st.route = some rn ∧
        ∃ h ∈ rn.stack, handlerMethod h = some e.method ∧
          e.path = pathResolve cwd (joinTruthy [st.routerPath, rn.path, h.path]) := by
  constructor
  · unfold extractRoutes
    simpa using foldl_append_eq_flatten (processStack cwd) (getStacks app) []
  · intro st hst
    cases hroute : st.route with
    | none =>
        constructor
        · simp [processStack, hroute]
        · intro e he
          simp [processStack, hroute] at he
    | some rn =>
        obtain ⟨a, b, c⟩ :=
          logStep_fold cwd st.routerPath rn.path rn.stack ([], []) rfl
            List.nodup_nil
        constructor
        · rw [processStack, hroute]
          unfold processRouteStack
          rw [a]
          exact b
        · intro e he
          rw [processStack, hroute] at he
          rcases c e he with h0 | hex
          · cases h0
          · obtain ⟨h', hh', hm, hp⟩ := hex
            exact ⟨rn, rfl, h', hh', hm, hp⟩

/-- Witness for C7: the app exposing `GET /users/:id` extracts to the
flattened per-node lists, with de-duplicated verbs on its single node. -/
theorem extractRoutes_dedup_paths_witness :
    extractRoutes "/" paramApp
      = ((getStacks paramApp).map (processStack "/")).flatten ∧
    ((processStack "/"
        (StackEntry.mk none ""
          (some ⟨[⟨some "get", none⟩], some "/users/:id"⟩) none)).map
      RouteRec.method).Nodup :=
  ⟨(extractRoutes_dedup_paths "/" paramApp).1,
   ((extractRoutes_dedup_paths "/" paramApp).2
      (StackEntry.mk none ""
        (some ⟨[⟨some "get", none⟩], some "/users/:id"⟩) none)
      (List.mem_singleton_self _)).1⟩

/-- Witness for C6 at the concrete throwing app. -/
theorem discovery_failClosed_witness :
    getStacks throwApp = [] ∧ extractRoutes "/" throwApp = [] ∧
    emittedEvents (recordResponse { baseOpts with collectAnyPaths := false }
      "/" freshState ⟨"/x", "GET", throwApp, none⟩ ⟨200, none⟩ 1).2 = [] :=
  ⟨(discovery_failClosed "/" throwApp rfl rfl rfl rfl).1,
   (discovery_failClosed "/" throwApp rfl rfl rfl rfl).2.1,
   (discovery_failClosed "/" throwApp rfl rfl rfl rfl).2.2.2
      { baseOpts with collectAnyPaths := false } freshState
      ⟨"/x", "GET", throwApp, none⟩ ⟨200, none⟩ 1 rfl rfl rfl⟩

end ExpressProm
